import Mathlib

set_option maxRecDepth 8192

/-!
Shallow embedding of the AluVM core: the control-flow ISA of the
`aluvm` crate (its data model, bytecode marshalling, instruction
execution and the VM driver loop), with theorems checking the
natural-language specification against the code.

Machine integers of the source (u8, u16, u64) are embedded as `Nat`
with explicit range conditions where overflow matters; the i8 shift
operand is embedded as `Int`.  Fallible operations return `Option`
values; the decoder returns a three-valued result so that the
`unreachable` panic arm of the source decoder is observable.
-/

/-- Status register value, from `src/core/util.rs`: a two-valued ok/fail tag. -/
inductive Status where
  | Ok
  | Fail
deriving DecidableEq

/-- `Status::is_ok` from `src/core/util.rs`. -/
def Status.is_ok : Status → Bool
  | .Ok => true
  | .Fail => false

/-- `impl Not for Status` from `src/core/util.rs`: logical negation. -/
def Status.negate : Status → Status
  | .Ok => .Fail
  | .Fail => .Ok

/-- Program location `(prog_id, offset)` from `src/core/util.rs`; the offset is a
u16 held as a `Nat`. -/
structure Site (Id : Type) where
  prog_id : Id
  offset : Nat
deriving DecidableEq

/-- Control-flow instructions, from `src/isa/ctrl/instr.rs`.  Positions are u16
held as `Nat`; the shift operand is an i8 held as `Int`. -/
inductive CtrlInstr (Id : Type) where
  | Nop
  | ChkCo
  | ChkCk
  | NotCo
  | FailCk
  | RsetCk
  | Jmp (pos : Nat)
  | JiOvfl (pos : Nat)
  | JiFail (pos : Nat)
  | Sh (shift : Int)
  | ShOvfl (shift : Int)
  | ShFail (shift : Int)
  | Exec (site : Site Id)
  | Fn (pos : Nat)
  | Call (site : Site Id)
  | Ret
  | Stop
deriving DecidableEq

/-- Reserved instruction wrapping its opcode byte, from `src/isa/arch.rs`. -/
structure ReservedInstr where
  opcode : Nat
deriving DecidableEq

/-- The union ISA from `src/isa/arch.rs`: control-flow instructions plus
reserved opcodes. -/
inductive Instr (Id : Type) where
  | Ctrl (i : CtrlInstr Id)
  | Reserved (i : ReservedInstr)
deriving DecidableEq

/-- The verdict returned by an instruction `exec`, from `src/isa/instr.rs`. -/
inductive ExecStep (Id : Type) where
  | Stop
  | Fail
  | Next
  | Jump (pos : Nat)
  | Call (site : Site Id)
  | Ret (site : Site Id)
deriving DecidableEq

/-- Opcode byte of a control-flow instruction, from `opcode_byte` in
`src/isa/ctrl/bytecode.rs` together with the opcode constants there
(NOP=0, NOCO=1, CHCO=2, CHCK=3, FAIL=4, RSET=5, JMP=6, JINE=7, JIFAIL=8,
SH=9, SHNE=10, SHFAIL=11, EXEC=12, FN=13, CALL=14, RET=15, STOP=16). -/
def CtrlInstr.opcode_byte {Id : Type} : CtrlInstr Id → Nat
  | .Nop => 0
  | .ChkCo => 2
  | .ChkCk => 3
  | .NotCo => 1
  | .FailCk => 4
  | .RsetCk => 5
  | .Jmp _ => 6
  | .JiOvfl _ => 7
  | .JiFail _ => 8
  | .Sh _ => 9
  | .ShOvfl _ => 10
  | .ShFail _ => 11
  | .Exec _ => 12
  | .Fn _ => 13
  | .Call _ => 14
  | .Ret => 15
  | .Stop => 16

/-- Number of code-segment bytes of a control-flow instruction (operand bytes
plus one opcode byte), from `code_byte_len` in `src/isa/ctrl/bytecode.rs`. -/
def CtrlInstr.code_byte_len {Id : Type} (i : CtrlInstr Id) : Nat :=
  let arg_bytes : Nat :=
    match i with
    | .Nop | .ChkCo | .ChkCk | .NotCo | .FailCk | .RsetCk => 0
    | .Jmp _ | .JiOvfl _ | .JiFail _ | .Fn _ => 2
    | .Sh _ | .ShOvfl _ | .ShFail _ => 1
    | .Exec _ | .Call _ => 3
    | .Ret | .Stop => 0
  arg_bytes + 1

/-- The two little-endian bytes written for a u16 operand by `write_word` of the
bytecode writer (the Marshaller itself is absent from the provided sources;
modelled from the spec: multi-byte integers are little-endian). -/
def write_word_bytes (pos : Nat) : List Nat := [pos % 256, pos / 256]

/-- The single byte written for an i8 shift operand: `shift.to_le_bytes()[0]`,
i.e. the two-complement byte of the shift value. -/
def i8_byte (shift : Int) : Nat := (shift % 256).toNat

/-- Modelled from the spec: the index assigned by `write_ref` to a library id
inside the write-once libs segment (section 4.2 of the spec; the Marshaller is
absent from the provided sources).  Returns the first index at which the id
occurs, or `none` when the id is not in the segment. -/
def refIndex {Id : Type} [DecidableEq Id] (libs : List Id) (id : Id) : Option Nat :=
  match libs with
  | [] => none
  | x :: rest => if x = id then some 0 else (refIndex rest id).map (· + 1)

/-- Operand bytes of a control-flow instruction, from `encode_operands` in
`src/isa/ctrl/bytecode.rs`.  `write_ref` is modelled from the spec as a 1-byte
index into the libs segment, failing (`none`) when the referenced library is
absent from the segment or the index does not fit a byte. -/
def CtrlInstr.encode_operands {Id : Type} [DecidableEq Id] (libs : List Id) :
    CtrlInstr Id → Option (List Nat)
  | .Nop | .ChkCo | .ChkCk | .FailCk | .RsetCk | .NotCo | .Ret | .Stop => some []
  | .Jmp pos | .JiOvfl pos | .JiFail pos | .Fn pos => some (write_word_bytes pos)
  | .Sh shift | .ShOvfl shift | .ShFail shift => some [i8_byte shift]
  | .Call site | .Exec site =>
    match refIndex libs site.prog_id with
    | some k => if k < 256 then some (k :: write_word_bytes site.offset) else none
    | none => none

/-- Full code-segment bytes of a control-flow instruction: the opcode byte
followed by the operand bytes, from `encode_instr` of the `Bytecode` trait. -/
def CtrlInstr.encode_instr {Id : Type} [DecidableEq Id] (libs : List Id)
    (i : CtrlInstr Id) : Option (List Nat) :=
  (i.encode_operands libs).map fun ops => i.opcode_byte :: ops

/-- Outcome of decoding: a value together with the remaining bytes, the typed
end-of-code error, or the `unreachable` panic arm of the source decoder. -/
inductive DecodeResult (α : Type) where
  | ok (val : α) (rest : List Nat)
  | eof
  | unreachableArm
deriving DecidableEq

/-- Reading one byte from the code segment; `none` is the end-of-code error. -/
def read_byte : List Nat → Option (Nat × List Nat)
  | [] => none
  | b :: rest => some (b, rest)

/-- Reading a little-endian u16 from the code segment. -/
def read_word : List Nat → Option (Nat × List Nat)
  | b0 :: b1 :: rest => some (b0 + 256 * b1, rest)
  | _ => none

/-- The i8 value of a byte, as read back by `i8::from_le_bytes`. -/
def read_i8 (b : Nat) : Int := if b < 128 then (b : Int) else (b : Int) - 256

/-- Modelled from the spec: `read_ref` reads a 1-byte index into the libs
segment and resolves it (section 4.2; the Marshaller is absent from the
provided sources).  A missing byte or an out-of-range index surfaces as the
typed decode error, never as a panic (spec section 7). -/
def read_ref {Id : Type} (libs : List Id) : List Nat → Option (Id × List Nat)
  | [] => none
  | b :: rest =>
    match libs[b]? with
    | some id => some (id, rest)
    | none => none

/-- Operand decoding for control-flow opcodes, from `decode_operands` in
`src/isa/ctrl/bytecode.rs`.  The arms mirror the source match exactly: the
opcodes NOP, CHCK, FAIL, RSET, NOCO, RET, STOP, JMP, JINE, JIFAIL, FN, SH,
SHNE, SHFAIL, CALL and EXEC are handled, and every other opcode falls into the
`unreachable` panic arm, which is modelled by `DecodeResult.unreachableArm`.
Note that the CHCO opcode (2) has no arm in the source. -/
def CtrlInstr.decode_operands {Id : Type} (libs : List Id) (bytes : List Nat) :
    Nat → DecodeResult (CtrlInstr Id)
  | 0 => .ok .Nop bytes
  | 3 => .ok .ChkCk bytes
  | 4 => .ok .FailCk bytes
  | 5 => .ok .RsetCk bytes
  | 1 => .ok .NotCo bytes
  | 15 => .ok .Ret bytes
  | 16 => .ok .Stop bytes
  | 6 =>
    match read_word bytes with
    | some (pos, rest) => .ok (.Jmp pos) rest
    | none => .eof
  | 7 =>
    match read_word bytes with
    | some (pos, rest) => .ok (.JiOvfl pos) rest
    | none => .eof
  | 8 =>
    match read_word bytes with
    | some (pos, rest) => .ok (.JiFail pos) rest
    | none => .eof
  | 13 =>
    match read_word bytes with
    | some (pos, rest) => .ok (.Fn pos) rest
    | none => .eof
  | 9 =>
    match read_byte bytes with
    | some (b, rest) => .ok (.Sh (read_i8 b)) rest
    | none => .eof
  | 10 =>
    match read_byte bytes with
    | some (b, rest) => .ok (.ShOvfl (read_i8 b)) rest
    | none => .eof
  | 11 =>
    match read_byte bytes with
    | some (b, rest) => .ok (.ShFail (read_i8 b)) rest
    | none => .eof
  | 14 =>
    match read_ref libs bytes with
    | some (prog_id, r1) =>
      match read_word r1 with
      | some (offset, rest) => .ok (.Call (Site.mk prog_id offset)) rest
      | none => .eof
    | none => .eof
  | 12 =>
    match read_ref libs bytes with
    | some (prog_id, r1) =>
      match read_word r1 with
      | some (offset, rest) => .ok (.Exec (Site.mk prog_id offset)) rest
      | none => .eof
    | none => .eof
  | _ => .unreachableArm

/-- Operand decoding for the union ISA, from `decode_operands` for `Instr` in
`src/isa/ctrl/bytecode.rs`: opcodes inside the `CtrlInstr` op range 0..=16 are
routed to `CtrlInstr.decode_operands`; every other opcode decodes as a
`ReservedInstr` consuming no operand bytes. -/
def Instr.decode_operands {Id : Type} (libs : List Id) (bytes : List Nat)
    (opcode : Nat) : DecodeResult (Instr Id) :=
  if opcode ≤ 16 then
    match CtrlInstr.decode_operands libs bytes opcode with
    | .ok i rest => .ok (.Ctrl i) rest
    | .eof => .eof
    | .unreachableArm => .unreachableArm
  else .ok (.Reserved (ReservedInstr.mk opcode)) bytes

/-- Decoding one full instruction: the opcode byte followed by the operands,
from `decode_instr` of the `Bytecode` trait. -/
def Instr.decode_instr {Id : Type} (libs : List Id) :
    List Nat → DecodeResult (Instr Id)
  | [] => .eof
  | op :: rest => Instr.decode_operands libs rest op

/-- Core control registers.  The generic `Core` struct used by
`src/isa/ctrl/exec.rs` and `src/vm.rs` is absent from the provided sources
(only the older `AluCore` is present); modelled from the spec, sections 3 and
4.1: `ch` halt-on-failure latch, `ck` check register, `cf` failure counter,
`co` test register, `cy` cycle counter, `ca` complexity accumulator, `cl`
complexity limit, `cs` call stack bounded by the configured capacity
`cs_size`. -/
structure Core (Id : Type) where
  ch : Bool
  ck : Status
  cf : Nat
  co : Status
  cy : Nat
  ca : Nat
  cl : Option Nat
  cs : List (Site Id)
  cs_size : Nat
deriving DecidableEq

/-- Modelled from the spec, section 4.1: `fail_ck` sets `CK` to Fail,
increments `CF`, and reports "caller must stop" exactly when `CH` is set and
`CF` just transitioned from zero. -/
def Core.fail_ck {Id : Type} (c : Core Id) : Bool × Core Id :=
  (c.ch && (c.cf == 0), { c with ck := Status.Fail, cf := c.cf + 1 })

/-- `set_co` mutator, from the spec, section 4.1. -/
def Core.set_co {Id : Type} (c : Core Id) (s : Status) : Core Id := { c with co := s }

/-- `reset_ck` mutator, from the spec, section 4.1. -/
def Core.reset_ck {Id : Type} (c : Core Id) : Core Id := { c with ck := Status.Ok }

/-- Modelled from the spec, section 4.1: `push_cs` pushes a site onto the
bounded call stack, returning `none` on overflow. -/
def Core.push_cs {Id : Type} (c : Core Id) (site : Site Id) : Option (Core Id) :=
  if c.cs.length < c.cs_size then some { c with cs := c.cs ++ [site] } else none

/-- Modelled from the spec, section 4.1: `pop_cs` pops the most recently
pushed site from the call stack, returning `none` when the stack is empty. -/
def Core.pop_cs {Id : Type} (c : Core Id) : Option (Site Id × Core Id) :=
  match c.cs.getLast? with
  | some site => some (site, { c with cs := c.cs.dropLast })
  | none => none

/-- The `shift_jump` closure of `CtrlInstr` exec in `src/isa/ctrl/exec.rs`:
checked signed addition of the i8 shift to the u16 offset of the cursor,
failing when the result leaves the u16 range. -/
def shift_jump {Id : Type} (cursor : Site Id) (shift : Int) : ExecStep Id :=
  let t : Int := (cursor.offset : Int) + shift
  if 0 ≤ t ∧ t ≤ 65535 then ExecStep.Jump t.toNat else ExecStep.Fail

/-- Execution of a control-flow instruction, from `CtrlInstr` exec in
`src/isa/ctrl/exec.rs`, with the mutable core state passed and returned
explicitly.  `cursor` is the site of the instruction being executed. -/
def CtrlInstr.exec {Id : Type} (i : CtrlInstr Id) (cursor : Site Id)
    (core : Core Id) : Core Id × ExecStep Id :=
  match i with
  | .Nop => (core, .Next)
  | .ChkCo => if core.co.is_ok then (core, .Next) else (core, .Fail)
  | .ChkCk => if core.ck.is_ok then (core, .Next) else (core, .Stop)
  | .FailCk =>
    let r := core.fail_ck
    if r.1 then (r.2, .Stop) else (r.2, .Next)
  | .RsetCk => ((core.set_co core.ck).reset_ck, .Next)
  | .NotCo => (core.set_co core.co.negate, .Next)
  | .Jmp pos => (core, .Jump pos)
  | .JiOvfl pos => if core.co = .Fail then (core, .Jump pos) else (core, .Next)
  | .JiFail pos => if core.ck = .Fail then (core, .Jump pos) else (core, .Next)
  | .Sh shift => (core, shift_jump cursor shift)
  | .ShOvfl shift =>
    if core.co = .Fail then (core, shift_jump cursor shift) else (core, .Next)
  | .ShFail shift =>
    if core.ck = .Fail then (core, shift_jump cursor shift) else (core, .Next)
  | .Exec site => (core, .Call site)
  | .Fn pos =>
    match core.push_cs cursor with
    | some c2 => (c2, .Jump pos)
    | none => (core, .Fail)
  | .Call site =>
    match core.push_cs cursor with
    | some c2 => (c2, .Call site)
    | none => (core, .Fail)
  | .Ret =>
    match core.pop_cs with
    | some (site, c2) => (c2, .Ret site)
    | none => (core, .Stop)
  | .Stop => (core, .Stop)

/-- Execution of a reserved instruction, from `src/isa/ctrl/exec.rs`: always
returns `ExecStep::Fail` and leaves the core untouched. -/
def ReservedInstr.exec {Id : Type} (_ : ReservedInstr) (_ : Site Id)
    (core : Core Id) : Core Id × ExecStep Id :=
  (core, ExecStep.Fail)

/-- `complexity` of a reserved instruction, from `src/isa/ctrl/exec.rs`:
`u64::MAX`. -/
def ReservedInstr.complexity (_ : ReservedInstr) : Nat := 2 ^ 64 - 1

/-- The uninhabited register type of the control-flow core extension, from
`src/core/util.rs`. -/
inductive NoRegs : Type

/-- Byte width of a register; for `NoRegs` the source body is unreachable. -/
def NoRegs.bytes : NoRegs → Nat := fun r => nomatch r

/-- `src_regs` of a control-flow instruction, from `src/isa/ctrl/exec.rs`:
the empty set for every instruction. -/
def CtrlInstr.src_regs {Id : Type} : CtrlInstr Id → List NoRegs := fun _ => []

/-- `dst_regs` of a control-flow instruction, from `src/isa/ctrl/exec.rs`:
the empty set for every instruction. -/
def CtrlInstr.dst_regs {Id : Type} : CtrlInstr Id → List NoRegs := fun _ => []

/-- Total byte width of the source registers, from `src_reg_bytes` in
`src/isa/instr.rs`. -/
def CtrlInstr.src_reg_bytes {Id : Type} (i : CtrlInstr Id) : Nat :=
  (i.src_regs.map NoRegs.bytes).sum

/-- Total byte width of the destination registers, from `dst_reg_bytes` in
`src/isa/instr.rs`. -/
def CtrlInstr.dst_reg_bytes {Id : Type} (i : CtrlInstr Id) : Nat :=
  (i.dst_regs.map NoRegs.bytes).sum

/-- Operand byte count of a control-flow instruction, from `op_data_bytes` in
`src/isa/ctrl/exec.rs`. -/
def CtrlInstr.op_data_bytes {Id : Type} : CtrlInstr Id → Nat
  | .Nop | .ChkCo | .ChkCk | .NotCo | .FailCk | .RsetCk => 0
  | .Jmp _ | .JiOvfl _ | .JiFail _ => 2
  | .Sh _ | .ShOvfl _ | .ShFail _ => 1
  | .Exec _ => 2
  | .Fn _ => 2
  | .Call _ => 2
  | .Ret | .Stop => 0

/-- External data byte count of a control-flow instruction, from
`ext_data_bytes` in `src/isa/ctrl/exec.rs`: 32 for Exec and Call (the full
referenced LibId), 0 otherwise. -/
def CtrlInstr.ext_data_bytes {Id : Type} : CtrlInstr Id → Nat
  | .Nop | .ChkCo | .ChkCk | .NotCo | .FailCk | .RsetCk => 0
  | .Jmp _ | .JiOvfl _ | .JiFail _ => 0
  | .Sh _ | .ShOvfl _ | .ShFail _ => 0
  | .Exec _ => 32
  | .Fn _ => 0
  | .Call _ => 32
  | .Ret | .Stop => 0

/-- Base complexity formula from `base_complexity` in `src/isa/instr.rs`:
`(op_data_bytes + src_reg_bytes + dst_reg_bytes + ext_data_bytes * 2) * 8 *
1000`.  For control-flow instructions every summand is at most 64, so the u64
arithmetic of the source cannot overflow and plain `Nat` arithmetic is a
faithful embedding. -/
def CtrlInstr.base_complexity {Id : Type} (i : CtrlInstr Id) : Nat :=
  (i.op_data_bytes + i.src_reg_bytes + i.dst_reg_bytes + i.ext_data_bytes * 2)
    * 8 * 1000

/-- `complexity` of a control-flow instruction: `CtrlInstr` does not override
the default of the `Instruction` trait in `src/isa/instr.rs`, so it equals
`base_complexity`. -/
def CtrlInstr.complexity {Id : Type} (i : CtrlInstr Id) : Nat := i.base_complexity

/-- Whether the instruction references an external library site (the Exec and
Call variants). -/
def CtrlInstr.is_external {Id : Type} : CtrlInstr Id → Bool
  | .Exec _ | .Call _ => true
  | _ => false

/-- The verdict returned by library execution to the VM driver, from the
`Jump` type used by `src/vm.rs` (its definition lives in the library module,
absent from the provided sources; modelled from the spec, section 4.6). -/
inductive Jump (Id : Type) where
  | Halt
  | Instr (site : Site Id)
  | Next (site : Site Id)

/-- The driver loop of `Vm::exec` from `src/vm.rs`, with `fuel` bounding the
number of loop iterations (the source loop is unbounded); `none` means the
fuel ran out.  Library execution is kept abstract as the function argument
`libExec` over an abstract library type `Lb`, since `Lib::exec` is absent
from the provided sources; `fail_ck` is modelled from the spec.  Each exit of
the source loop corresponds to returning `some` of the core state at exit. -/
def vmLoop {Id Lb : Type} (libExec : Lb → Nat → Bool → Core Id → Core Id × Jump Id)
    (resolver : Id → Option Lb) :
    Nat → Site Id → Bool → Core Id → Option (Core Id)
  | 0, _, _, _ => none
  | fuel + 1, site, skip, core =>
    match resolver site.prog_id with
    | some lib =>
      match libExec lib site.offset skip core with
      | (core2, .Halt) => some core2
      | (core2, .Instr s) => vmLoop libExec resolver fuel s false core2
      | (core2, .Next s) => vmLoop libExec resolver fuel s true core2
    | none =>
      let r := core.fail_ck
      if r.1 then some r.2
      else if site.offset + 1 < 65536 then
        vmLoop libExec resolver fuel (Site.mk site.prog_id (site.offset + 1)) skip r.2
      else some r.2

/-- `Vm::exec` from `src/vm.rs`: runs the driver loop from the entry point
with the skip flag initially false and returns the value of the `CK` register
of the core state after the loop exits. -/
def Vm.exec {Id Lb : Type} (libExec : Lb → Nat → Bool → Core Id → Core Id × Jump Id)
    (resolver : Id → Option Lb) (fuel : Nat) (entry : Site Id) (core : Core Id) :
    Option Status :=
  (vmLoop libExec resolver fuel entry false core).map Core.ck

/-- Whether the instruction arm of the source exec mutates the `CK` register
(the FailCk and RsetCk arms). -/
def CtrlInstr.writes_ck {Id : Type} : CtrlInstr Id → Bool
  | .FailCk | .RsetCk => true
  | _ => false

/-- Whether the instruction arm of the source exec mutates the `CO` register
(the NotCo and RsetCk arms). -/
def CtrlInstr.writes_co {Id : Type} : CtrlInstr Id → Bool
  | .NotCo | .RsetCk => true
  | _ => false

/-- Whether the instruction arm of the source exec touches the call stack
(the Fn, Call and Ret arms). -/
def CtrlInstr.writes_cs {Id : Type} : CtrlInstr Id → Bool
  | .Fn _ | .Call _ | .Ret => true
  | _ => false

/-- A concrete core state used by the witness theorems. -/
def coreEx : Core Nat :=
  { ch := true, ck := Status.Ok, cf := 0, co := Status.Ok, cy := 0, ca := 0,
    cl := none, cs := [], cs_size := 255 }

/-- In-range operand condition for a control-flow instruction: u16 positions
and offsets, i8 shifts. -/
def CtrlInstr.in_range {Id : Type} : CtrlInstr Id → Prop
  | .Jmp pos | .JiOvfl pos | .JiFail pos | .Fn pos => pos < 65536
  | .Sh s | .ShOvfl s | .ShFail s => -128 ≤ s ∧ s ≤ 127
  | .Exec site | .Call site => site.offset < 65536
  | _ => True

/-- A trivial library executor used by the C2 witness: halts immediately. -/
def haltExec : Unit → Nat → Bool → Core Nat → Core Nat × Jump Nat :=
  fun _ _ _ c => (c, Jump.Halt)

/-- A resolver that never resolves any library id, used by the C2 witness. -/
def noResolver : Nat → Option Unit := fun _ => none

/-- C7: for every control-flow instruction, `complexity` equals
`(op_data_bytes + src_reg_bytes + dst_reg_bytes + 2 * ext_data_bytes) * 8 *
1000`, the external data bytes are 32 for Exec and Call and 0 for every other
instruction, and the source and destination register sets are empty. -/
theorem C7_ctrl_complexity {Id : Type} (i : CtrlInstr Id) :
    i.complexity
      = (i.op_data_bytes + i.src_reg_bytes + i.dst_reg_bytes
          + 2 * i.ext_data_bytes) * 8 * 1000
    ∧ i.ext_data_bytes = (if i.is_external then 32 else 0)
    ∧ i.src_regs = [] ∧ i.dst_regs = [] := by
  refine ⟨?_, ?_, rfl, rfl⟩
  · simp only [CtrlInstr.complexity, CtrlInstr.base_complexity, Nat.mul_comm]
  · cases i <;> rfl

/-- C8 counterexample: for the Exec instruction, `op_data_bytes` is 2 while
`code_byte_len - 1` is 3, so the claimed equality fails. -/
theorem C8_counterexample :
    ¬ (CtrlInstr.op_data_bytes (CtrlInstr.Exec (Site.mk 0 0) : CtrlInstr Nat)
        = CtrlInstr.code_byte_len (CtrlInstr.Exec (Site.mk 0 0) : CtrlInstr Nat) - 1) := by
  decide

/-- C8 amended: `op_data_bytes` equals `code_byte_len - 1` (the operand byte
count) for every control-flow instruction except Exec and Call, whose
`op_data_bytes` is 2 (only the 2-byte offset; the 1-byte library reference is
excluded, its referent being charged through `ext_data_bytes`) while their
code-segment operand footprint is 3 bytes. -/
theorem C8_op_data_amended {Id : Type} (i : CtrlInstr Id) :
    (i.is_external = false → i.op_data_bytes + 1 = i.code_byte_len)
    ∧ (i.is_external = true → i.op_data_bytes = 2 ∧ i.code_byte_len = 4) := by
  cases i <;>
    simp [CtrlInstr.is_external, CtrlInstr.op_data_bytes, CtrlInstr.code_byte_len]

/-- C8 witness: the amended statement applied to the Exec instruction. -/
theorem C8_witness :
    CtrlInstr.op_data_bytes (CtrlInstr.Exec (Site.mk 0 0) : CtrlInstr Nat) = 2
    ∧ CtrlInstr.code_byte_len (CtrlInstr.Exec (Site.mk 0 0) : CtrlInstr Nat) = 4 :=
  (C8_op_data_amended (CtrlInstr.Exec (Site.mk 0 0) : CtrlInstr Nat)).2 rfl

/-- C6: every opcode byte in 17..=127 decodes through the union ISA as a
reserved instruction carrying that opcode and consuming no operand bytes;
executing a reserved instruction always returns `ExecStep::Fail` leaving the
core untouched, and its complexity is `u64::MAX`. -/
theorem C6_reserved_opcodes {Id : Type} (opcode : Nat)
    (h1 : 17 ≤ opcode) (h2 : opcode ≤ 127) :
    (∀ (libs : List Id) (bytes : List Nat),
      Instr.decode_operands libs bytes opcode
        = DecodeResult.ok (Instr.Reserved (ReservedInstr.mk opcode)) bytes)
    ∧ (∀ (cursor : Site Id) (core : Core Id),
      (ReservedInstr.mk opcode).exec cursor core = (core, ExecStep.Fail))
    ∧ (ReservedInstr.mk opcode).complexity = 2 ^ 64 - 1 := by
  refine ⟨fun libs bytes => ?_, fun cursor core => rfl, rfl⟩
  rw [Instr.decode_operands, if_neg (by omega)]

/-- C6 witness: the statement applied to opcode 17. -/
theorem C6_witness :
    Instr.decode_operands ([] : List Nat) [0] 17
      = DecodeResult.ok (Instr.Reserved (ReservedInstr.mk 17)) [0]
    ∧ (ReservedInstr.mk 17).exec (Site.mk (0 : Nat) 0) coreEx = (coreEx, ExecStep.Fail)
    ∧ (ReservedInstr.mk 17).complexity = 2 ^ 64 - 1 := by
  obtain ⟨h1, h2, h3⟩ := @C6_reserved_opcodes Nat 17 (by decide) (by decide)
  exact ⟨h1 [] [0], h2 (Site.mk 0 0) coreEx, h3⟩

/-- C3: executing `Fn` pushes the cursor site (the address of the Fn
instruction itself) onto the call stack and returns `Jump(pos)`, executing
`Call` pushes the cursor site and returns `Call(site)`, a failed push yields
`ExecStep::Fail` with the core unchanged, and executing `Exec` returns
`Call(site)` without touching the call stack. -/
theorem C3_frame_effects {Id : Type} (pos : Nat) (site cursor : Site Id)
    (core : Core Id) :
    (core.cs.length < core.cs_size →
      (CtrlInstr.Fn pos).exec cursor core
        = ({ core with cs := core.cs ++ [cursor] }, ExecStep.Jump pos)
      ∧ (CtrlInstr.Call site).exec cursor core
        = ({ core with cs := core.cs ++ [cursor] }, ExecStep.Call site))
    ∧ (¬ core.cs.length < core.cs_size →
      (CtrlInstr.Fn pos).exec cursor core = (core, ExecStep.Fail)
      ∧ (CtrlInstr.Call site).exec cursor core = (core, ExecStep.Fail))
    ∧ (CtrlInstr.Exec site).exec cursor core = (core, ExecStep.Call site) := by
  refine ⟨fun h => ⟨?_, ?_⟩, fun h => ⟨?_, ?_⟩, rfl⟩ <;>
    simp [CtrlInstr.exec, Core.push_cs, h]

/-- C3 witness: the statement applied to an empty call stack of capacity 255. -/
theorem C3_witness :
    (CtrlInstr.Fn 7).exec (Site.mk (0 : Nat) 3) coreEx
      = ({ coreEx with cs := [Site.mk 0 3] }, ExecStep.Jump 7)
    ∧ (CtrlInstr.Call (Site.mk 1 9)).exec (Site.mk (0 : Nat) 3) coreEx
      = ({ coreEx with cs := [Site.mk 0 3] }, ExecStep.Call (Site.mk 1 9)) := by
  have h := (C3_frame_effects 7 (Site.mk 1 9) (Site.mk (0 : Nat) 3) coreEx).1 (by decide)
  exact ⟨h.1, h.2⟩

/-- C4: executing `Ret` pops the call stack and returns `Ret(popped)` when
the stack is non-empty; on an empty stack it returns `ExecStep::Stop`; it
never returns `ExecStep::Fail` and leaves the `CK` register unchanged. -/
theorem C4_ret_semantics {Id : Type} (cursor : Site Id) (core : Core Id) :
    (core.cs = [] → CtrlInstr.Ret.exec cursor core = (core, ExecStep.Stop))
    ∧ (∀ (l : List (Site Id)) (s : Site Id), core.cs = l ++ [s] →
      CtrlInstr.Ret.exec cursor core = ({ core with cs := l }, ExecStep.Ret s))
    ∧ ((CtrlInstr.Ret.exec cursor core).2 ≠ ExecStep.Fail)
    ∧ ((CtrlInstr.Ret.exec cursor core).1.ck = core.ck) := by
  refine ⟨fun h => ?_, fun l s h => ?_, ?_⟩
  · simp [CtrlInstr.exec, Core.pop_cs, h]
  · simp [CtrlInstr.exec, Core.pop_cs, h, List.getLast?_concat, List.dropLast_concat]
  · cases hg : core.cs.getLast? <;>
      simp [CtrlInstr.exec, Core.pop_cs, hg]

/-- C4 witness: the statement applied to a call stack holding one site. -/
theorem C4_witness :
    CtrlInstr.Ret.exec (Site.mk (0 : Nat) 0) { coreEx with cs := [Site.mk 5 6] }
      = (coreEx, ExecStep.Ret (Site.mk 5 6)) := by
  have h := (C4_ret_semantics (Site.mk (0 : Nat) 0)
    { coreEx with cs := [Site.mk 5 6] }).2.1 [] (Site.mk 5 6) rfl
  simpa using h

/-- C5: executing `Sh` returns a jump to the cursor offset (the offset of the
current instruction) plus the signed shift, and fails when the sum leaves the
u16 range; `ShOvfl` behaves identically when `CO` is Fail and returns `Next`
otherwise; `ShFail` behaves identically when `CK` is Fail and returns `Next`
otherwise. -/
theorem C5_shift_semantics {Id : Type} (shift : Int) (cursor : Site Id)
    (core : Core Id) :
    ((0 ≤ (cursor.offset : Int) + shift ∧ (cursor.offset : Int) + shift ≤ 65535) →
      (CtrlInstr.Sh shift).exec cursor core
        = (core, ExecStep.Jump ((cursor.offset : Int) + shift).toNat))
    ∧ (¬ (0 ≤ (cursor.offset : Int) + shift ∧ (cursor.offset : Int) + shift ≤ 65535) →
      (CtrlInstr.Sh shift).exec cursor core = (core, ExecStep.Fail))
    ∧ (core.co = Status.Fail →
      (CtrlInstr.ShOvfl shift).exec cursor core = (CtrlInstr.Sh shift).exec cursor core)
    ∧ (core.co ≠ Status.Fail →
      (CtrlInstr.ShOvfl shift).exec cursor core = (core, ExecStep.Next))
    ∧ (core.ck = Status.Fail →
      (CtrlInstr.ShFail shift).exec cursor core = (CtrlInstr.Sh shift).exec cursor core)
    ∧ (core.ck ≠ Status.Fail →
      (CtrlInstr.ShFail shift).exec cursor core = (core, ExecStep.Next)) := by
  refine ⟨fun h => ?_, fun h => ?_, fun h => ?_, fun h => ?_, fun h => ?_, fun h => ?_⟩ <;>
    simp [CtrlInstr.exec, shift_jump, h]

/-- C5 witness: the statement applied to shift -2 at offset 5 with `CO` ok. -/
theorem C5_witness :
    (CtrlInstr.Sh (-2)).exec (Site.mk (0 : Nat) 5) coreEx = (coreEx, ExecStep.Jump 3)
    ∧ (CtrlInstr.ShOvfl (-2)).exec (Site.mk (0 : Nat) 5) coreEx
      = (coreEx, ExecStep.Next) := by
  have h := C5_shift_semantics (-2) (Site.mk 0 5) coreEx
  refine ⟨?_, h.2.2.2.1 (by decide)⟩
  have h1 := h.1 (by decide)
  simpa using h1

/-- C9: no executing code mutates the `CH` register; `CtrlInstr` exec also
leaves `CY`, `CA` and `CL` unmodified; within it, `CK` is mutated only by the
FailCk and RsetCk arms, `CO` only by the NotCo and RsetCk arms, and the call
stack only by the Fn, Call and Ret arms; reserved instructions leave the
whole core untouched. -/
theorem C9_register_discipline {Id : Type} (i : CtrlInstr Id) (cursor : Site Id)
    (core : Core Id) (r : ReservedInstr) :
    ((i.exec cursor core).1.ch = core.ch)
    ∧ ((i.exec cursor core).1.cy = core.cy)
    ∧ ((i.exec cursor core).1.ca = core.ca)
    ∧ ((i.exec cursor core).1.cl = core.cl)
    ∧ (i.writes_ck = false → (i.exec cursor core).1.ck = core.ck)
    ∧ (i.writes_co = false → (i.exec cursor core).1.co = core.co)
    ∧ (i.writes_cs = false → (i.exec cursor core).1.cs = core.cs)
    ∧ ((r.exec cursor core).1 = core) := by
  by_cases hp : core.cs.length < core.cs_size <;>
    cases hg : core.cs.getLast? <;>
    refine ⟨?_, ?_, ?_, ?_, ?_, ?_, ?_, rfl⟩ <;>
    cases i <;>
    simp [CtrlInstr.exec, Core.fail_ck, Core.set_co, Core.reset_ck, Core.push_cs,
      Core.pop_cs, shift_jump, CtrlInstr.writes_ck, CtrlInstr.writes_co,
      CtrlInstr.writes_cs, hp, hg] <;>
    (try split) <;> simp_all

/-- C9 witness: the statement applied to Nop and to the reserved opcode 17. -/
theorem C9_witness :
    ((CtrlInstr.Nop : CtrlInstr Nat).exec (Site.mk 0 0) coreEx).1.ck = coreEx.ck
    ∧ ((ReservedInstr.mk 17).exec (Site.mk (0 : Nat) 0) coreEx).1 = coreEx := by
  have h := C9_register_discipline (CtrlInstr.Nop : CtrlInstr Nat) (Site.mk 0 0)
    coreEx (ReservedInstr.mk 17)
  exact ⟨h.2.2.2.2.1 rfl, h.2.2.2.2.2.2.2⟩

/-- C2: the VM driver returns the value of the `CK` register of the core
state at which the loop exits; and when the resolver returns no library for
the current site, the driver calls `fail_ck`: if that reports must-stop the
loop exits with the current core, otherwise the site offset is advanced by 1
and resolution is retried, and if that increment would overflow the u16
offset the loop exits. -/
theorem C2_vm_exec_ck {Id Lb : Type}
    (libExec : Lb → Nat → Bool → Core Id → Core Id × Jump Id)
    (resolver : Id → Option Lb) :
    (∀ (fuel : Nat) (entry : Site Id) (core final : Core Id),
      vmLoop libExec resolver fuel entry false core = some final →
      Vm.exec libExec resolver fuel entry core = some final.ck)
    ∧ (∀ (fuel : Nat) (site : Site Id) (skip : Bool) (core : Core Id),
      resolver site.prog_id = none →
      vmLoop libExec resolver (fuel + 1) site skip core =
        if (core.fail_ck).1 then some (core.fail_ck).2
        else if site.offset + 1 < 65536 then
          vmLoop libExec resolver fuel (Site.mk site.prog_id (site.offset + 1))
            skip (core.fail_ck).2
        else some (core.fail_ck).2) := by
  constructor
  · intro fuel entry core final h
    simp [Vm.exec, h]
  · intro fuel site skip core h
    simp only [vmLoop, h]

/-- C2 witness: a run whose entry library is unresolved with the halt latch
set stops immediately, reporting the failed `CK`. -/
theorem C2_witness :
    Vm.exec haltExec noResolver 1 (Site.mk 0 0) coreEx = some Status.Fail :=
  (C2_vm_exec_ck haltExec noResolver).1 1
    (Site.mk 0 0) coreEx
    { ch := true, ck := Status.Fail, cf := 1, co := Status.Ok, cy := 0, ca := 0,
      cl := none, cs := [], cs_size := 255 } rfl

/-- C1 (code bug): encoding `ChkCo` produces the single opcode byte 2, whose
length matches `code_byte_len`, but decoding those bytes through the union
ISA reaches the `unreachable` panic arm of `CtrlInstr::decode_operands`
(which has no arm for the CHCO opcode), so `decode(encode(ChkCo))` does not
return `ChkCo` and the round-trip property fails at this instruction.  The
Jmp example of the claim does encode to the stated bytes. -/
theorem C1_chkco_roundtrip_bug :
    CtrlInstr.encode_instr ([] : List Nat) (CtrlInstr.ChkCo : CtrlInstr Nat)
      = some [2]
    ∧ (CtrlInstr.ChkCo : CtrlInstr Nat).code_byte_len = 1
    ∧ Instr.decode_instr ([] : List Nat) [2]
      = (DecodeResult.unreachableArm : DecodeResult (Instr Nat))
    ∧ CtrlInstr.encode_instr ([] : List Nat) (CtrlInstr.Jmp 0x75AE : CtrlInstr Nat)
      = some [0x06, 0xAE, 0x75] := by
  refine ⟨rfl, rfl, rfl, by decide⟩

/-- C10 (code bug): opcode 2 lies inside the `CtrlInstr` op range 0..=16 and
is therefore routed by the union decoder to `CtrlInstr::decode_operands`,
where no arm matches it and the `unreachable` panic arm is reached: decoding
is not total over opcodes 0..=16 and the fallback arm is not dead code. -/
theorem C10_decode_unreachable_bug :
    (2 : Nat) ≤ 16
    ∧ Instr.decode_operands ([] : List Nat) ([] : List Nat) 2
      = (DecodeResult.unreachableArm : DecodeResult (Instr Nat))
    ∧ CtrlInstr.decode_operands ([] : List Nat) ([] : List Nat) 2
      = (DecodeResult.unreachableArm : DecodeResult (CtrlInstr Nat)) :=
  ⟨by decide, rfl, rfl⟩

theorem refIndex_lt_length {Id : Type} [DecidableEq Id] {libs : List Id} {id : Id}
    {k : Nat} (h : refIndex libs id = some k) : k < libs.length := by
  induction libs generalizing k with
  | nil => exact absurd h (by simp [refIndex])
  | cons x rest ih =>
    by_cases hx : x = id
    · simp [refIndex, hx] at h
      simp [List.length_cons]
      omega
    · simp [refIndex, hx] at h
      obtain ⟨k0, hk0, rfl⟩ := h
      have := ih hk0
      simp [List.length_cons]
      omega

theorem refIndex_get {Id : Type} [DecidableEq Id] {libs : List Id} {id : Id}
    {k : Nat} (h : refIndex libs id = some k) : libs[k]? = some id := by
  induction libs generalizing k with
  | nil => exact absurd h (by simp [refIndex])
  | cons x rest ih =>
    by_cases hx : x = id
    · simp [refIndex, hx] at h
      subst hx
      simp [← h]
    · simp [refIndex, hx] at h
      obtain ⟨k0, hk0, rfl⟩ := h
      simpa using ih hk0

theorem refIndex_mem {Id : Type} [DecidableEq Id] {libs : List Id} {id : Id}
    (h : id ∈ libs) : ∃ k, refIndex libs id = some k := by
  induction libs with
  | nil => simp at h
  | cons x rest ih =>
    by_cases hx : x = id
    · exact ⟨0, by simp [refIndex, hx]⟩
    · rcases List.mem_cons.mp h with h1 | h2
      · exact absurd h1.symm hx
      · obtain ⟨k, hk⟩ := ih h2
        exact ⟨k + 1, by simp [refIndex, hx, hk]⟩

theorem read_i8_i8_byte {s : Int} (h1 : -128 ≤ s) (h2 : s ≤ 127) :
    read_i8 (i8_byte s) = s := by
  simp only [read_i8, i8_byte]
  split <;> omega

/-- Round-trip for every control-flow instruction other than ChkCo: with
in-range operands and a libs segment of at most 255 entries containing any
referenced library, encoding succeeds, produces exactly `code_byte_len`
bytes, and decoding them back through the union ISA returns the same
instruction, consuming exactly those bytes.  (ChkCo is excluded: its decode
arm is missing in the source, see the C1 theorem.) -/
theorem roundtrip_except_chkco {Id : Type} [DecidableEq Id] (i : CtrlInstr Id)
    (libs : List Id) (rest : List Nat)
    (hne : i ≠ CtrlInstr.ChkCo) (hr : i.in_range) (hlen : libs.length ≤ 255)
    (hmem : ∀ site, i = CtrlInstr.Exec site ∨ i = CtrlInstr.Call site →
      site.prog_id ∈ libs) :
    ∃ bytes, i.encode_instr libs = some bytes
      ∧ bytes.length = i.code_byte_len
      ∧ Instr.decode_instr libs (bytes ++ rest) = DecodeResult.ok (Instr.Ctrl i) rest := by
  cases i with
  | ChkCo => exact absurd rfl hne
  | Nop => exact ⟨[0], rfl, rfl, rfl⟩
  | ChkCk => exact ⟨[3], rfl, rfl, rfl⟩
  | NotCo => exact ⟨[1], rfl, rfl, rfl⟩
  | FailCk => exact ⟨[4], rfl, rfl, rfl⟩
  | RsetCk => exact ⟨[5], rfl, rfl, rfl⟩
  | Ret => exact ⟨[15], rfl, rfl, rfl⟩
  | Stop => exact ⟨[16], rfl, rfl, rfl⟩
  | Jmp pos =>
    refine ⟨[6, pos % 256, pos / 256], rfl, rfl, ?_⟩
    simp [Instr.decode_instr, Instr.decode_operands, CtrlInstr.decode_operands,
      read_word, Nat.mod_add_div]
  | JiOvfl pos =>
    refine ⟨[7, pos % 256, pos / 256], rfl, rfl, ?_⟩
    simp [Instr.decode_instr, Instr.decode_operands, CtrlInstr.decode_operands,
      read_word, Nat.mod_add_div]
  | JiFail pos =>
    refine ⟨[8, pos % 256, pos / 256], rfl, rfl, ?_⟩
    simp [Instr.decode_instr, Instr.decode_operands, CtrlInstr.decode_operands,
      read_word, Nat.mod_add_div]
  | Fn pos =>
    refine ⟨[13, pos % 256, pos / 256], rfl, rfl, ?_⟩
    simp [Instr.decode_instr, Instr.decode_operands, CtrlInstr.decode_operands,
      read_word, Nat.mod_add_div]
  | Sh s =>
    refine ⟨[9, i8_byte s], rfl, rfl, ?_⟩
    simp [Instr.decode_instr, Instr.decode_operands, CtrlInstr.decode_operands,
      read_byte, read_i8_i8_byte hr.1 hr.2]
  | ShOvfl s =>
    refine ⟨[10, i8_byte s], rfl, rfl, ?_⟩
    simp [Instr.decode_instr, Instr.decode_operands, CtrlInstr.decode_operands,
      read_byte, read_i8_i8_byte hr.1 hr.2]
  | ShFail s =>
    refine ⟨[11, i8_byte s], rfl, rfl, ?_⟩
    simp [Instr.decode_instr, Instr.decode_operands, CtrlInstr.decode_operands,
      read_byte, read_i8_i8_byte hr.1 hr.2]
  | Exec site =>
    obtain ⟨k, hk⟩ := refIndex_mem (hmem site (Or.inl rfl))
    have hkl : k < libs.length := refIndex_lt_length hk
    refine ⟨[12, k, site.offset % 256, site.offset / 256], ?_, rfl, ?_⟩
    · simp only [CtrlInstr.encode_instr, CtrlInstr.encode_operands, hk]
      rw [if_pos (by omega)]
      rfl
    · simp [Instr.decode_instr, Instr.decode_operands, CtrlInstr.decode_operands,
        read_ref, refIndex_get hk, read_word, Nat.mod_add_div]
  | Call site =>
    obtain ⟨k, hk⟩ := refIndex_mem (hmem site (Or.inr rfl))
    have hkl : k < libs.length := refIndex_lt_length hk
    refine ⟨[14, k, site.offset % 256, site.offset / 256], ?_, rfl, ?_⟩
    · simp only [CtrlInstr.encode_instr, CtrlInstr.encode_operands, hk]
      rw [if_pos (by omega)]
      rfl
    · simp [Instr.decode_instr, Instr.decode_operands, CtrlInstr.decode_operands,
        read_ref, refIndex_get hk, read_word, Nat.mod_add_div]
